import Mathlib

set_option linter.unusedVariables false

/-!
Shallow embedding of the telebutton menu library (src/scripts/telebutton.py)
and verification of its specification claims.

Conventions of the embedding:
- Python dicts used as JSON-like documents become the `Doc` inductive;
  dict key lookup is first-match lookup in an ordered field list.
- The process-wide `_menu_registry` dict becomes an explicit `Registry`
  value threaded through the functions that read or mutate it.
- Python `None` results become `Option.none`; a raised, uncaught exception
  becomes an `Except.error` carrying the kind of exception.
- `str.split(":", 1)` becomes `split1`, which yields `none` exactly when
  the separator is absent (Python's length-1 result).
-/

/-- JSON/YAML-like document values: the output of `to_dict` and the input of
`from_dict`. Strings, numbers, lists and objects suffice for the menu format. -/
inductive Doc where
| str (s : String)
| nat (n : Nat)
| list (xs : List Doc)
| obj (fields : List (String × Doc))

/-- Python dict key lookup: first matching key wins. -/
def lookupKey {α : Type} (k : String) : List (String × α) → Option α
| [] => none
| (k', v) :: rest => if k' = k then some v else lookupKey k rest

mutual
/-- Embedding of the `ButtonOption` dataclass: display text, callback token,
and an optional nested sub-menu. -/
inductive ButtonOption where
| mk (text : String) (callback : String) (sub_menu : Option ButtonMenu)

/-- Embedding of the `ButtonMenu` dataclass: question, ordered options,
row width `max_per_row`, and the menu identifier `menu_id`. -/
inductive ButtonMenu where
| mk (question : String) (options : List ButtonOption) (max_per_row : Nat) (menu_id : String)
end

def ButtonOption.text : ButtonOption → String
| .mk t _ _ => t

def ButtonOption.callback : ButtonOption → String
| .mk _ c _ => c

def ButtonOption.sub_menu : ButtonOption → Option ButtonMenu
| .mk _ _ s => s

def ButtonMenu.question : ButtonMenu → String
| .mk q _ _ _ => q

def ButtonMenu.options : ButtonMenu → List ButtonOption
| .mk _ o _ _ => o

def ButtonMenu.max_per_row : ButtonMenu → Nat
| .mk _ _ m _ => m

def ButtonMenu.menu_id : ButtonMenu → String
| .mk _ _ _ i => i

/-- Linear first-match scan of an option list by callback token
(the loop body of `ButtonMenu.find_option`). -/
def findOptAux (callback : String) : List ButtonOption → Option ButtonOption
| [] => none
| o :: rest => if o.callback = callback then some o else findOptAux callback rest

/-- Embedding of `ButtonMenu.find_option`: linear scan over `self.options`,
first exact callback match wins, `none` if absent. -/
def ButtonMenu.find_option (m : ButtonMenu) (callback : String) : Option ButtonOption :=
  findOptAux callback m.options

/-- The menu registry `_menu_registry`: a dict from menu_id to menu, embedded
as an ordered association list where the most recent insertion shadows. -/
abbrev Registry := List (String × ButtonMenu)

/-- Registry lookup, i.e. `_menu_registry.get(menu_id)`. -/
def regLookup (k : String) (reg : Registry) : Option ButtonMenu :=
  lookupKey k reg

/-- Registry insertion, i.e. `_menu_registry[menu_id] = menu` (overwrite by
shadowing: lookups see the new value). -/
def regInsert (k : String) (v : ButtonMenu) (reg : Registry) : Registry :=
  (k, v) :: reg

/-- Removal of every binding of a key, i.e. `del _menu_registry[menu_id]`. -/
def eraseKey (k : String) : Registry → Registry
| [] => []
| (k', v) :: rest => if k' = k then eraseKey k rest else (k', v) :: eraseKey k rest

/-- Embedding of `clear_menu`: delete the entry only when the key is present. -/
def clear_menu (menu_id : String) (reg : Registry) : Registry :=
  if (regLookup menu_id reg).isSome then eraseKey menu_id reg else reg

/-- Split a character list at the first `':'`; `none` when no `':'` occurs. -/
def splitFirstAux : List Char → Option (List Char × List Char)
| [] => none
| c :: rest =>
  if c = ':' then some ([], rest)
  else (splitFirstAux rest).map (fun p => (c :: p.1, p.2))

/-- Embedding of `callback_data.split(":", 1)` followed by the length-2 check:
`some (menu_id, callback)` when a separator occurs, `none` otherwise. -/
def split1 (s : String) : Option (String × String) :=
  (splitFirstAux s.data).map (fun p => (String.mk p.1, String.mk p.2))

/-- The resolved selection dict built by `handle_callback`. The `sub_menu`
field is `some` exactly when the key was added to the Python dict. -/
structure Selection where
  callback : String
  text : String
  menu_id : String
  path : List String
  sub_menu : Option ButtonMenu

/-- Embedding of `handle_callback`: split the token on the first `':'`,
look the menu up in the registry, scan for the option, and build the
selection; every failure path returns `none` (the function is wrapped in a
catch-all `try`/`except` in the source, so no exception escapes). -/
def handle_callback (reg : Registry) (callback_data : String) : Option Selection :=
  match split1 callback_data with
  | none => none
  | some (menu_id, callback) =>
    match regLookup menu_id reg with
    | none => none
    | some menu =>
      match menu.find_option callback with
      | none => none
      | some option =>
        some ⟨callback, option.text, menu_id, [callback], option.sub_menu⟩

/-- Embedding of the stubbed `wait_selection`: the source computes a wait key
and a start time, prints a notice, and unconditionally returns `None`
(a TODO in the source admits that real callback listening is unimplemented).
The `delete_message` flag is accepted and ignored, as in the source. -/
def wait_selection (menu_id : Option String) (timeout : Nat) (delete_message : Bool) :
    Option Selection :=
  none

/-- One inline-keyboard button: display text plus the address token placed in
`callback_data`. -/
structure Cell where
  text : String
  callback_data : String
deriving DecidableEq

/-- The loop body of `_generate_inline_keyboard`: `i` is the 0-based index of
the next option, `row` the open row, `kb` the closed rows so far. Evaluating
`(i + 1) % max_per_row` with `max_per_row = 0` raises `ZeroDivisionError` in
Python, embedded as `none`. -/
def kbLoop (mid : String) (mpr : Nat) :
    Nat → List ButtonOption → List Cell → List (List Cell) →
    Option (List Cell × List (List Cell))
| _, [], row, kb => some (row, kb)
| i, o :: rest, row, kb =>
  if mpr = 0 then none
  else if (i + 1) % mpr = 0 then
    kbLoop mid mpr (i + 1) rest [] (kb ++ [row ++ [⟨o.text, mid ++ ":" ++ o.callback⟩]])
  else kbLoop mid mpr (i + 1) rest (row ++ [⟨o.text, mid ++ ":" ++ o.callback⟩]) kb

/-- Embedding of `_generate_inline_keyboard`: run the loop from index 0 with an
empty row, then append the final row if non-empty. `none` models the
`ZeroDivisionError` raised when `max_per_row = 0` and an option is processed. -/
def generate_inline_keyboard (menu : ButtonMenu) : Option (List (List Cell)) :=
  (kbLoop menu.menu_id menu.max_per_row 0 menu.options [] []).map
    (fun p => if p.1.isEmpty then p.2 else p.2 ++ [p.1])

/-- The flat cell sequence of a menu: option `i` contributes its text and the
address token `menu_id ++ ":" ++ callback`, in option order. -/
def mkCells (mid : String) (opts : List ButtonOption) : List Cell :=
  opts.map (fun o => ⟨o.text, mid ++ ":" ++ o.callback⟩)

/-- Kinds of uncaught Python exception the embedded functions can raise. -/
inductive PyError where
| zeroDivision
| valueError

/-- External inputs of a presentation: the configured bot token, the outcome of
the HTTP request (`some message_id` on success, `none` when the request raised
and was caught), and the message id the openclaw path fabricates from the
clock. -/
structure Env where
  bot_token : Option String
  http_response : Option String
  now_msg_id : String

/-- Embedding of `_send_via_openclaw`: always succeeds, returning the
fabricated message id (the body only prints). -/
def send_via_openclaw (env : Env) : Option String :=
  some env.now_msg_id

/-- Embedding of `_send_via_telegram_api`: raises `ValueError` (uncaught) when
no bot token is configured; otherwise the request runs under `try`/`except`,
returning the message id or `None` when the request failed. -/
def send_via_telegram_api (env : Env) : Except PyError (Option String) :=
  match env.bot_token with
  | none => Except.error PyError.valueError
  | some _ =>
    match env.http_response with
    | some mid => Except.ok (some mid)
    | none => Except.ok none

/-- Embedding of `show_menu`: register the menu first, then generate the
keyboard (which can raise `ZeroDivisionError`), then dispatch on the selected
transport. The returned pair is (outcome, registry after the call); the
registry is mutated before any fallible step. -/
def show_menu (env : Env) (reg : Registry) (menu : ButtonMenu) (use_openclaw : Bool) :
    Except PyError (Option String) × Registry :=
  let reg' := regInsert menu.menu_id menu reg
  match generate_inline_keyboard menu with
  | none => (Except.error PyError.zeroDivision, reg')
  | some _ =>
    if use_openclaw then (Except.ok (send_via_openclaw env), reg')
    else (send_via_telegram_api env, reg')

mutual
/-- Embedding of `ButtonOption.to_dict`: always the `text` and `callback`
fields, plus `sub_menu` exactly when a sub-menu is present (a dataclass
instance is always truthy in the source's `if self.sub_menu`). -/
def ButtonOption.to_dict : ButtonOption → Doc
| .mk t c none => Doc.obj [("text", Doc.str t), ("callback", Doc.str c)]
| .mk t c (some m) =>
  Doc.obj [("text", Doc.str t), ("callback", Doc.str c), ("sub_menu", m.to_dict)]

/-- Embedding of `ButtonMenu.to_dict`: question, recursively encoded options,
`max_per_row` and `menu_id`, always all four. -/
def ButtonMenu.to_dict : ButtonMenu → Doc
| .mk q opts mpr mid =>
  Doc.obj [("question", Doc.str q), ("options", Doc.list (toDictList opts)),
    ("max_per_row", Doc.nat mpr), ("menu_id", Doc.str mid)]

/-- Encoding of each option of a list in order (the list comprehension in
`ButtonMenu.to_dict`). -/
def toDictList : List ButtonOption → List Doc
| [] => []
| o :: rest => o.to_dict :: toDictList rest
end

/-- Dict access that must produce a string (`data[key]` used as a `str`). -/
def getStr (k : String) (fs : List (String × Doc)) : Option String :=
  match lookupKey k fs with
  | some (Doc.str s) => some s
  | _ => none

mutual
/-- The `sub_menu` part of `ButtonOption.from_dict`: parse the nested sub-menu
document when the `sub_menu` key is present. -/
def parseSubMenu (gen : Nat → String) (fs : List (String × Doc)) (k : Nat) :
    Option (Option ButtonMenu × Nat) :=
  match h : lookupKey "sub_menu" fs with
  | none => some ((none : Option ButtonMenu), k)
  | some sd =>
    (ButtonMenu.from_dict gen sd k).map (fun (p : ButtonMenu × Nat) => (some p.1, p.2))
termination_by sizeOf fs
decreasing_by
  revert h
  induction fs with
  | nil => intro h; simp [lookupKey] at h
  | cons p rest ih =>
    intro h
    obtain ⟨k', v⟩ := p
    simp only [lookupKey] at h
    split at h
    · injection h with h2
      subst h2
      simp only [List.cons.sizeOf_spec, Prod.mk.sizeOf_spec]
      omega
    · have hlt := ih h
      simp only [List.cons.sizeOf_spec, Prod.mk.sizeOf_spec]
      omega

/-- Embedding of `ButtonOption.from_dict`: parse the nested sub-menu when the
`sub_menu` key is present, then require the `text` and `callback` fields.
A missing required key (Python `KeyError`) and an ill-shaped value are both
`none`. The `Nat` argument threads the supply of generated menu ids. -/
def ButtonOption.from_dict (gen : Nat → String) : Doc → Nat → Option (ButtonOption × Nat)
| Doc.obj fs, k =>
  (parseSubMenu gen fs k).bind (fun sk =>
    match getStr "text" fs, getStr "callback" fs with
    | some t, some c => some (.mk t c sk.1, sk.2)
    | _, _ => none)
| _, _ => none
termination_by d k => sizeOf d
decreasing_by
  simp only [Doc.obj.sizeOf_spec]
  omega

/-- The `options` part of `ButtonMenu.from_dict`: the empty list when the key
is absent (`data.get("options", [])`), the parsed option list when it holds a
list, failure otherwise. -/
def parseOptionsField (gen : Nat → String) (fs : List (String × Doc)) (k : Nat) :
    Option (List ButtonOption × Nat) :=
  match h : lookupKey "options" fs with
  | none => some (([] : List ButtonOption), k)
  | some (Doc.list ds) => fromDictList gen ds k
  | some _ => none
termination_by sizeOf fs
decreasing_by
  revert h
  induction fs with
  | nil => intro h; simp [lookupKey] at h
  | cons p rest ih =>
    intro h
    obtain ⟨k', v⟩ := p
    simp only [lookupKey] at h
    split at h
    · injection h with h2
      subst h2
      simp only [List.cons.sizeOf_spec, Prod.mk.sizeOf_spec, Doc.list.sizeOf_spec]
      omega
    · have hlt := ih h
      simp only [List.cons.sizeOf_spec, Prod.mk.sizeOf_spec]
      omega

/-- Embedding of `ButtonMenu.from_dict`: parse `options` (defaulting to the
empty list when the key is absent, as `data.get("options", [])` does), require
`question`, default `max_per_row` to 2, generate a fresh menu id (the
dataclass `default_factory` always runs) and then honor a supplied `menu_id`
by overwriting the generated one. -/
def ButtonMenu.from_dict (gen : Nat → String) : Doc → Nat → Option (ButtonMenu × Nat)
| Doc.obj fs, k =>
  (parseOptionsField gen fs k).bind (fun ok =>
    match getStr "question" fs with
    | none => none
    | some q =>
      (match lookupKey "max_per_row" fs with
       | none => some 2
       | some (Doc.nat n) => some n
       | some _ => none)
      |>.bind (fun mpr =>
        match lookupKey "menu_id" fs with
        | none => some (.mk q ok.1 mpr (gen ok.2), ok.2 + 1)
        | some (Doc.str s) => some (.mk q ok.1 mpr s, ok.2 + 1)
        | some _ => none))
| _, _ => none
termination_by d k => sizeOf d
decreasing_by
  simp only [Doc.obj.sizeOf_spec]
  omega

/-- Parsing of each document of the `options` list in order. -/
def fromDictList (gen : Nat → String) : List Doc → Nat → Option (List ButtonOption × Nat)
| [], k => some ([], k)
| d :: rest, k =>
  match ButtonOption.from_dict gen d k with
  | none => none
  | some (o, k1) =>
    match fromDictList gen rest k1 with
    | none => none
    | some (os, k2) => some (o :: os, k2)
termination_by ds k => sizeOf ds
decreasing_by
  all_goals simp_arith
end

/-- Example menu from the spec routing examples: options A/a and B/b under
menu id m1. -/
def m1ex : ButtonMenu := .mk "q" [.mk "A" "a" none, .mk "B" "b" none] 2 "m1"

/-- Second example menu, used for registry frame checks. -/
def m2ex : ButtonMenu := .mk "q2" [.mk "C" "c" none] 2 "m2"

/-- Example menu whose menu id contains the separator character. -/
def mColon : ButtonMenu := .mk "q" [.mk "X" "x" none] 2 "a:b"

/-- Grid chunking: consecutive rows of `n` cells, the last row possibly
shorter. This is the reference grid the keyboard builder is proved against. -/
def chunk {α : Type} [DecidableEq α] (n : Nat) (l : List α) : List (List α) :=
  if h1 : l = [] then []
  else if h2 : n = 0 then []
  else l.take n :: chunk n (l.drop n)
termination_by l.length
decreasing_by
  simp only [List.length_drop]
  have : 0 < l.length := List.length_pos.mpr h1
  omega

/-- Example menu for the layout witness: three options, width two. -/
def m4ex : ButtonMenu :=
  .mk "q" [.mk "A" "a" none, .mk "B" "b" none, .mk "C" "c" none] 2 "m4"

/-- Sub-menu of the C5 counterexample, sharing the id `"m"` with its root. -/
def sub5 : ButtonMenu := .mk "s" [.mk "B" "b" none] 2 "m"

/-- Root menu of the C5 counterexample. -/
def root5 : ButtonMenu := .mk "q" [.mk "A" "a" (some sub5)] 2 "m"

/-- Environment for concrete presentation examples. -/
def env0 : Env := ⟨some "token", some "100", "msg_1"⟩

/-- Sub-menu for the C5 witness, with its own distinct id. -/
def subW : ButtonMenu := .mk "s" [.mk "B" "b" none] 2 "s5"

/-- Root menu for the C5 witness. -/
def rootW : ButtonMenu := .mk "q" [.mk "A" "a" (some subW)] 2 "r5"

mutual
/-- Menu definition documents of the external file format: a JSON/YAML object
with the fields `question`, `options` (a list of option objects),
`max_per_row` and `menu_id`, each possibly absent. -/
inductive MenuDoc where
| mk (question : Option String) (options : Option (List OptDoc))
    (max_per_row : Option Nat) (menu_id : Option String)

/-- Option objects of the document format: `text`, `callback` and a nested
`sub_menu` document, each possibly absent. -/
inductive OptDoc where
| mk (text : Option String) (callback : Option String) (sub : Option MenuDoc)
end

/-- A single dict field, present or absent. -/
def optField (k : String) : Option Doc → List (String × Doc)
| none => []
| some v => [(k, v)]

mutual
/-- The field list of a menu document rendered as a raw `Doc` object. -/
def menuDocFields : MenuDoc → List (String × Doc)
| .mk q opts mpr mid =>
  optField "question" (q.map Doc.str)
    ++ (optField "options" (match opts with
        | none => none
        | some l => some (Doc.list (optDocListToDoc l)))
    ++ (optField "max_per_row" (mpr.map Doc.nat)
    ++ optField "menu_id" (mid.map Doc.str)))

/-- The field list of an option document rendered as a raw `Doc` object. -/
def optDocFields : OptDoc → List (String × Doc)
| .mk t c sub =>
  optField "text" (t.map Doc.str)
    ++ (optField "callback" (c.map Doc.str)
    ++ optField "sub_menu" (match sub with
        | none => none
        | some m => some (Doc.obj (menuDocFields m))))

/-- The rendering of a list of option documents. -/
def optDocListToDoc : List OptDoc → List Doc
| [] => []
| d :: rest => Doc.obj (optDocFields d) :: optDocListToDoc rest
end

/-- The raw document denoted by a menu document. -/
def MenuDoc.toDoc (md : MenuDoc) : Doc := Doc.obj (menuDocFields md)

/-- The `menu_id` field of a menu document. -/
def MenuDoc.menuIdField : MenuDoc → Option String
| .mk _ _ _ mid => mid

mutual
/-- Presence of all required fields, per the deserialization contract:
`question` at the top of every (sub-)menu document, `text` and `callback` on
every listed option, recursively through `sub_menu`. -/
def MenuDoc.requiredOk : MenuDoc → Bool
| .mk q opts _ _ =>
  q.isSome && (match opts with
    | none => true
    | some l => optDocListOk l)

/-- Required fields of one option document. -/
def OptDoc.requiredOk : OptDoc → Bool
| .mk t c sub =>
  (match sub with
    | none => true
    | some m => m.requiredOk) && (t.isSome && c.isSome)

/-- Required fields of every option document of a list. -/
def optDocListOk : List OptDoc → Bool
| [] => true
| d :: rest => d.requiredOk && optDocListOk rest
end

/-- Fixed id generator for concrete deserialization examples. -/
def gen0 : Nat → String := fun _ => "gid"

/-- Document with all required fields and a supplied menu id. -/
def md0 : MenuDoc :=
  .mk (some "q") (some [.mk (some "A") (some "a") none]) none (some "m1")

/-- Document missing its required `question` field. -/
def md1 : MenuDoc := .mk none none none none

mutual
/-- Round-trip of a single menu through `to_dict` and `from_dict`. -/
theorem menu_from_dict_to_dict (gen : Nat → String) (m : ButtonMenu) (k : Nat) :
    ∃ k', ButtonMenu.from_dict gen m.to_dict k = some (m, k') := by
  match m with
  | .mk q opts mpr mid =>
    obtain ⟨k1, h1⟩ := optList_from_dict_to_dict gen opts k
    exact ⟨k1 + 1, by
      simp [ButtonMenu.to_dict, ButtonMenu.from_dict, parseOptionsField, lookupKey, getStr, h1]⟩
termination_by sizeOf m

/-- Round-trip of a single option through `to_dict` and `from_dict`. -/
theorem opt_from_dict_to_dict (gen : Nat → String) (o : ButtonOption) (k : Nat) :
    ∃ k', ButtonOption.from_dict gen o.to_dict k = some (o, k') := by
  match o with
  | .mk t c none =>
    exact ⟨k, by simp [ButtonOption.to_dict, ButtonOption.from_dict, parseSubMenu, lookupKey, getStr]⟩
  | .mk t c (some m) =>
    obtain ⟨k1, h1⟩ := menu_from_dict_to_dict gen m k
    exact ⟨k1, by
      simp [ButtonOption.to_dict, ButtonOption.from_dict, parseSubMenu, lookupKey, getStr, h1]⟩
termination_by sizeOf o

/-- Round-trip of an option list through `toDictList` and `fromDictList`. -/
theorem optList_from_dict_to_dict (gen : Nat → String) (l : List ButtonOption) (k : Nat) :
    ∃ k', fromDictList gen (toDictList l) k = some (l, k') := by
  match l with
  | [] => exact ⟨k, by simp [toDictList, fromDictList]⟩
  | o :: rest =>
    obtain ⟨k1, h1⟩ := opt_from_dict_to_dict gen o k
    obtain ⟨k2, h2⟩ := optList_from_dict_to_dict gen rest k1
    exact ⟨k2, by simp [toDictList, fromDictList, h1, h2]⟩
termination_by sizeOf l
end

/-- Splitting a list whose first `':'` is the marked one recovers both halves. -/
theorem splitFirstAux_append (l1 l2 : List Char) (h : ':' ∉ l1) :
    splitFirstAux (l1 ++ ':' :: l2) = some (l1, l2) := by
  induction l1 with
  | nil => simp [splitFirstAux]
  | cons c rest ih =>
    have hc : c ≠ ':' := fun hc => h (hc ▸ List.mem_cons_self c rest)
    have h' : ':' ∉ rest := fun hm => h (List.mem_cons_of_mem c hm)
    simp [splitFirstAux, hc, ih h']

/-- Joining a separator-free menu id with a callback and splitting again
recovers the components. -/
theorem split1_sep (mid c : String) (h : ':' ∉ mid.data) :
    split1 (mid ++ ":" ++ c) = some (mid, c) := by
  have hd : (mid ++ ":" ++ c).data = mid.data ++ ':' :: c.data := by
    show mid.data ++ ":".data ++ c.data = mid.data ++ ':' :: c.data
    simp
  simp [split1, hd, splitFirstAux_append mid.data c.data h]

/-- The split fails exactly when the separator does not occur. -/
theorem splitFirstAux_eq_none (l : List Char) : splitFirstAux l = none ↔ ':' ∉ l := by
  induction l with
  | nil => simp [splitFirstAux]
  | cons c rest ih =>
    by_cases hc : c = ':'
    · subst hc; simp [splitFirstAux]
    · simp [splitFirstAux, hc, ih, Ne.symm hc]

/-- Token-level version of `splitFirstAux_eq_none`. -/
theorem split1_eq_none (s : String) : split1 s = none ↔ ':' ∉ s.data := by
  simp [split1, splitFirstAux_eq_none]

/-- Erasing a key removes every binding of it. -/
theorem lookupKey_eraseKey_self (k : String) (reg : Registry) :
    regLookup k (eraseKey k reg) = none := by
  induction reg with
  | nil => rfl
  | cons p rest ih =>
    obtain ⟨k', v⟩ := p
    by_cases h : k' = k
    · simpa [eraseKey, h] using ih
    · simpa [eraseKey, h, regLookup, lookupKey] using ih

/-- Erasing one key leaves the lookup of every other key unchanged. -/
theorem lookupKey_eraseKey_ne (k mid : String) (hk : k ≠ mid) (reg : Registry) :
    regLookup k (eraseKey mid reg) = regLookup k reg := by
  induction reg with
  | nil => rfl
  | cons p rest ih =>
    obtain ⟨k', v⟩ := p
    by_cases h : k' = mid
    · have hne : ¬ k' = k := fun he => hk (he ▸ h)
      simp only [regLookup, lookupKey, eraseKey, if_pos h, if_neg hne]
      exact ih
    · simp only [regLookup, lookupKey, eraseKey, if_neg h]
      simp only [regLookup] at ih
      rw [ih]

/-- After `clear_menu mid`, the id `mid` no longer resolves in the registry. -/
theorem regLookup_clear_menu_self (mid : String) (reg : Registry) :
    regLookup mid (clear_menu mid reg) = none := by
  unfold clear_menu
  cases h : regLookup mid reg with
  | none => simp [h]
  | some m => simp [h, lookupKey_eraseKey_self]

/-- C1 counterexample: the claim quantifies over every registered menu and
callback token, but a registered menu whose `menu_id` contains the separator
`':'` is not resolvable through its own address token. `mColon` is registered
under its id `"a:b"` and `find_option` finds the option with callback `"x"`,
yet resolving `"a:b" ++ ":" ++ "x"` splits at the first `':'` into
`("a", "b:x")`, misses the registry, and returns `none` instead of the claimed
selection. -/
theorem handle_callback_separator_ambiguity_cx :
    mColon.find_option "x" = some (.mk "X" "x" none)
    ∧ regLookup mColon.menu_id [("a:b", mColon)] = some mColon
    ∧ handle_callback [("a:b", mColon)] (mColon.menu_id ++ ":" ++ "x") = none :=
  ⟨rfl, rfl, rfl⟩

/-- C1 (amended): for every registered menu `m` whose `menu_id` does not
contain the separator `':'` and every callback token `c` with
`find_option m c = some o`, resolving the address token
`m.menu_id ++ ":" ++ c` yields the selection with callback `c`, text
`o.text`, menu id `m.menu_id`, path `[c]`, and exactly `o`'s sub-menu. -/
theorem handle_callback_resolves_registered (reg : Registry) (m : ButtonMenu)
    (c : String) (o : ButtonOption)
    (hsep : ':' ∉ m.menu_id.data)
    (hreg : regLookup m.menu_id reg = some m)
    (hfind : m.find_option c = some o) :
    handle_callback reg (m.menu_id ++ ":" ++ c)
      = some ⟨c, o.text, m.menu_id, [c], o.sub_menu⟩ := by
  simp [handle_callback, split1_sep m.menu_id c hsep, hreg, hfind]

/-- C1 witness: the spec's own routing example, resolving `"m1:a"` against the
registered two-option menu. -/
theorem handle_callback_resolves_registered_witness :
    handle_callback [("m1", m1ex)] ("m1" ++ ":" ++ "a")
      = some ⟨"a", "A", "m1", ["a"], none⟩ :=
  handle_callback_resolves_registered [("m1", m1ex)] m1ex "a" (.mk "A" "a" none)
    (by decide) rfl rfl

/-- C2: resolution never raises and returns the unresolvable outcome (the
source's `None`, the spec's `Unresolvable`) in exactly the claimed situations:
when the separator is absent from the token (malformed), when the split-off
menu id is not registered — in particular after `clear_menu` removed it —
(unknown-menu), and when the registered menu has no option with the split-off
callback (unknown-option). The embedding is a total function, reflecting the
catch-all `try`/`except` of the source. -/
theorem handle_callback_unresolvable (reg : Registry) (token : String) :
    (':' ∉ token.data → handle_callback reg token = none)
    ∧ (∀ mid c, split1 token = some (mid, c) → regLookup mid reg = none →
        handle_callback reg token = none)
    ∧ (∀ mid c menu, split1 token = some (mid, c) → regLookup mid reg = some menu →
        menu.find_option c = none → handle_callback reg token = none)
    ∧ (∀ mid c, ':' ∉ mid.data → token = mid ++ ":" ++ c →
        handle_callback (clear_menu mid reg) token = none) := by
  refine ⟨?_, ?_, ?_, ?_⟩
  · intro h
    simp [handle_callback, (split1_eq_none token).mpr h]
  · intro mid c hs hl
    simp [handle_callback, hs, hl]
  · intro mid c menu hs hl hf
    simp [handle_callback, hs, hl, hf]
  · intro mid c hsep htok
    subst htok
    simp [handle_callback, split1_sep mid c hsep, regLookup_clear_menu_self]

/-- C2 witness: the spec's error-handling examples, plus the cleared-menu
case, all at concrete inputs. -/
theorem handle_callback_unresolvable_witness :
    handle_callback [("m1", m1ex)] "noSeparatorHere" = none
    ∧ handle_callback [("m1", m1ex)] "ghost:a" = none
    ∧ handle_callback [("m1", m1ex)] "m1:z" = none
    ∧ handle_callback (clear_menu "m1" [("m1", m1ex)]) "m1:a" = none := by
  refine ⟨?_, ?_, ?_, ?_⟩
  · exact (handle_callback_unresolvable [("m1", m1ex)] "noSeparatorHere").1 (by decide)
  · exact (handle_callback_unresolvable [("m1", m1ex)] "ghost:a").2.1 "ghost" "a"
      (by decide) rfl
  · exact (handle_callback_unresolvable [("m1", m1ex)] "m1:z").2.2.1 "m1" "z" m1ex
      (by decide) rfl rfl
  · exact (handle_callback_unresolvable [("m1", m1ex)] "m1:a").2.2.2 "m1" "a"
      (by decide) rfl

/-- C3: deserializing the serialization of any menu tree yields a structurally
equal tree — the same question, the same ordered options with their texts,
callbacks and recursively nested sub-menus, the same `max_per_row`, and the
original `menu_id` (which `to_dict` always emits and `from_dict` honors). -/
theorem from_dict_to_dict_roundtrip (gen : Nat → String) (t : ButtonMenu) (k : Nat) :
    ∃ k', ButtonMenu.from_dict gen t.to_dict k = some (t, k') :=
  menu_from_dict_to_dict gen t k

/-- C10: clearing an unregistered id returns the registry unchanged (and, the
embedding being a total function, without raising); clearing a registered id
removes exactly that entry, leaving the lookup of every other id unchanged. -/
theorem clear_menu_frame (reg : Registry) (mid : String) :
    (regLookup mid reg = none → clear_menu mid reg = reg)
    ∧ (∀ menu, regLookup mid reg = some menu →
        regLookup mid (clear_menu mid reg) = none
        ∧ ∀ k, k ≠ mid → regLookup k (clear_menu mid reg) = regLookup k reg) := by
  constructor
  · intro h
    simp [clear_menu, h]
  · intro menu h
    refine ⟨regLookup_clear_menu_self mid reg, ?_⟩
    intro k hk
    simp [clear_menu, h, lookupKey_eraseKey_ne k mid hk]

/-- Successor under a modulus, reduced to the residue. -/
theorem succ_mod_eq (i mpr : Nat) : (i + 1) % mpr = (i % mpr + 1) % mpr := by
  conv_lhs => rw [← Nat.mod_add_div i mpr]
  rw [Nat.add_right_comm, Nat.add_mul_mod_self_left]

/-- When the incremented index is divisible by the width, the residue was one
short of the width. -/
theorem mod_succ_eq_zero (i mpr : Nat) (hm : 1 ≤ mpr) (h : (i + 1) % mpr = 0) :
    i % mpr + 1 = mpr := by
  have hr : i % mpr < mpr := Nat.mod_lt _ (by omega)
  rcases Nat.lt_or_ge (i % mpr + 1) mpr with hlt | hge
  · exfalso
    rw [succ_mod_eq, Nat.mod_eq_of_lt hlt] at h
    omega
  · omega

/-- When the incremented index is not divisible by the width, the residue just
increments. -/
theorem mod_succ_ne_zero (i mpr : Nat) (hm : 1 ≤ mpr) (h : ¬ (i + 1) % mpr = 0) :
    (i + 1) % mpr = i % mpr + 1 := by
  have hr : i % mpr < mpr := Nat.mod_lt _ (by omega)
  by_cases hlt : i % mpr + 1 < mpr
  · rw [succ_mod_eq, Nat.mod_eq_of_lt hlt]
  · exfalso
    apply h
    have he : i % mpr + 1 = mpr := by omega
    rw [succ_mod_eq, he, Nat.mod_self]

/-- Chunking the empty list gives no rows. -/
theorem chunk_nil {α : Type} [DecidableEq α] (n : Nat) : chunk n ([] : List α) = [] := by
  unfold chunk
  simp

/-- For a positive width, chunking yields no rows only for the empty list. -/
theorem chunk_eq_nil {α : Type} [DecidableEq α] (n : Nat) (hn : 1 ≤ n) (l : List α) :
    chunk n l = [] ↔ l = [] := by
  constructor
  · intro h
    by_contra hne
    rw [chunk, dif_neg hne, dif_neg (by omega : ¬ n = 0)] at h
    exact List.cons_ne_nil _ _ h
  · intro h
    subst h
    exact chunk_nil n

/-- A short non-empty list is a single chunk. -/
theorem chunk_short {α : Type} [DecidableEq α] (n : Nat) (hn : 1 ≤ n) (l : List α)
    (hne : l ≠ []) (hlen : l.length ≤ n) : chunk n l = [l] := by
  rw [chunk, dif_neg hne, dif_neg (by omega : ¬ n = 0),
    List.take_of_length_le hlen, List.drop_eq_nil_of_le hlen, chunk_nil]

/-- A full first row splits off the front of the chunking. -/
theorem chunk_full {α : Type} [DecidableEq α] (n : Nat) (hn : 1 ≤ n) (l rest : List α)
    (hlen : l.length = n) : chunk n (l ++ rest) = l :: chunk n rest := by
  have hne : l ++ rest ≠ [] := by
    intro h
    rcases List.append_eq_nil.mp h with ⟨h1, _⟩
    subst h1
    simp at hlen
    omega
  rw [chunk, dif_neg hne, dif_neg (by omega : ¬ n = 0), ← hlen,
    List.take_left, List.drop_left]

/-- Concatenation of all chunks restores the list. -/
theorem chunk_flatten {α : Type} [DecidableEq α] (n : Nat) (hn : 1 ≤ n) (l : List α) :
    (chunk n l).flatten = l := by
  by_cases h : l = []
  · subst h
    rw [chunk_nil]
    rfl
  · have hrec := chunk_flatten n hn (l.drop n)
    rw [chunk, dif_neg h, dif_neg (by omega : ¬ n = 0), List.flatten_cons, hrec,
      List.take_append_drop]
termination_by l.length
decreasing_by
  simp only [List.length_drop]
  have : 0 < l.length := List.length_pos.mpr h
  omega

/-- Every chunk except possibly the last is a full row. -/
theorem chunk_dropLast_length {α : Type} [DecidableEq α] (n : Nat) (hn : 1 ≤ n) (l : List α) :
    ∀ r ∈ (chunk n l).dropLast, r.length = n := by
  by_cases h : l = []
  · subst h
    rw [chunk_nil]
    intro r hr
    simp at hr
  · have hrec := chunk_dropLast_length n hn (l.drop n)
    rw [chunk, dif_neg h, dif_neg (by omega : ¬ n = 0)]
    by_cases hd : l.drop n = []
    · rw [hd, chunk_nil]
      intro r hr
      simp at hr
    · have hlen : n ≤ l.length := by
        by_contra hc
        exact hd (List.drop_eq_nil_of_le (by omega))
      cases hc : chunk n (l.drop n) with
      | nil => exact absurd (((chunk_eq_nil n hn (l.drop n)).mp hc)) hd
      | cons x xs =>
        intro r hr
        rw [List.dropLast_cons₂] at hr
        rcases List.mem_cons.mp hr with hr | hr
        · subst hr
          rw [List.length_take]
          omega
        · exact hrec r (hc ▸ hr)
termination_by l.length
decreasing_by
  simp only [List.length_drop]
  have : 0 < l.length := List.length_pos.mpr h
  omega

/-- The length of the last chunk: the remainder of the division, or a full row
when the list length is divisible by the width. -/
theorem chunk_getLast_length {α : Type} [DecidableEq α] (n : Nat) (hn : 1 ≤ n) (l : List α)
    (hne : l ≠ []) :
    ∀ r, (chunk n l).getLast? = some r →
      r.length = if l.length % n = 0 then n else l.length % n := by
  by_cases hd : l.drop n = []
  · have hlen : l.length ≤ n := by
      by_contra hc
      have := List.length_drop n l
      have hpos : 0 < (l.drop n).length := by omega
      rw [hd] at hpos
      simp at hpos
    intro r hr
    rw [chunk_short n hn l hne hlen, List.getLast?_singleton] at hr
    cases hr
    have hpos : 0 < l.length := List.length_pos.mpr hne
    by_cases he : l.length = n
    · simp [he, Nat.mod_self]
    · have hlt : l.length < n := by omega
      rw [Nat.mod_eq_of_lt hlt, if_neg (by omega)]
  · have hlen : n ≤ l.length := by
      by_contra hc
      exact hd (List.drop_eq_nil_of_le (by omega))
    have hrec := chunk_getLast_length n hn (l.drop n) hd
    intro r hr
    rw [chunk, dif_neg hne, dif_neg (by omega : ¬ n = 0)] at hr
    cases hc : chunk n (l.drop n) with
    | nil => exact absurd (((chunk_eq_nil n hn (l.drop n)).mp hc)) hd
    | cons x xs =>
      rw [hc, List.getLast?_cons_cons] at hr
      have := hrec r (hc ▸ hr)
      rw [List.length_drop] at this
      rw [Nat.mod_eq_sub_mod hlen]
      exact this
termination_by l.length
decreasing_by
  simp only [List.length_drop]
  have : 0 < l.length := List.length_pos.mpr hne
  omega

/-- Loop invariant of the keyboard builder: when the open row's length is the
index's residue modulo the width, the finished keyboard (closed rows, plus the
open row when non-empty) is the already-closed rows followed by the chunking
of the open row and the cells of the remaining options. -/
theorem kbLoop_chunk (mid : String) (mpr : Nat) (hm : 1 ≤ mpr) :
    ∀ (opts : List ButtonOption) (i : Nat) (row : List Cell) (kb : List (List Cell)),
      row.length = i % mpr →
      (kbLoop mid mpr i opts row kb).map
          (fun p => if p.1.isEmpty then p.2 else p.2 ++ [p.1])
        = some (kb ++ chunk mpr (row ++ mkCells mid opts)) := by
  intro opts
  induction opts with
  | nil =>
    intro i row kb hrow
    simp only [kbLoop, Option.map_some', mkCells, List.map_nil, List.append_nil]
    by_cases h : row = []
    · subst h
      simp [chunk_nil]
    · have hlen : row.length < mpr := by
        rw [hrow]
        exact Nat.mod_lt _ (by omega)
      rw [chunk_short mpr hm row h (by omega)]
      simp [h]
  | cons o rest ih =>
    intro i row kb hrow
    have hm0 : ¬ mpr = 0 := by omega
    simp only [kbLoop, if_neg hm0]
    by_cases hb : (i + 1) % mpr = 0
    · rw [if_pos hb]
      have hfull : (row ++ [(⟨o.text, mid ++ ":" ++ o.callback⟩ : Cell)]).length = mpr := by
        have := mod_succ_eq_zero i mpr hm hb
        simp only [List.length_append, List.length_cons, List.length_nil]
        omega
      rw [ih (i + 1) [] (kb ++ [row ++ [(⟨o.text, mid ++ ":" ++ o.callback⟩ : Cell)]]) (by simp [hb])]
      have hsplit : row ++ mkCells mid (o :: rest)
          = (row ++ [(⟨o.text, mid ++ ":" ++ o.callback⟩ : Cell)]) ++ mkCells mid rest := by
        simp [mkCells]
      rw [hsplit, chunk_full mpr hm _ _ hfull]
      simp
    · rw [if_neg hb]
      have hrow' : (row ++ [(⟨o.text, mid ++ ":" ++ o.callback⟩ : Cell)]).length
          = (i + 1) % mpr := by
        rw [mod_succ_ne_zero i mpr hm hb]
        simp [hrow]
      rw [ih (i + 1) (row ++ [(⟨o.text, mid ++ ":" ++ o.callback⟩ : Cell)]) kb hrow']
      have hsplit : (row ++ [(⟨o.text, mid ++ ":" ++ o.callback⟩ : Cell)]) ++ mkCells mid rest
          = row ++ mkCells mid (o :: rest) := by
        simp [mkCells]
      rw [hsplit]

/-- C10 witness: clearing an absent id is the identity on a two-menu registry;
clearing `"m1"` removes it and leaves `"m2"` resolvable. -/
theorem clear_menu_frame_witness :
    clear_menu "ghost" [("m1", m1ex), ("m2", m2ex)] = [("m1", m1ex), ("m2", m2ex)]
    ∧ regLookup "m1" (clear_menu "m1" [("m1", m1ex), ("m2", m2ex)]) = none
    ∧ regLookup "m2" (clear_menu "m1" [("m1", m1ex), ("m2", m2ex)])
        = regLookup "m2" [("m1", m1ex), ("m2", m2ex)] :=
  ⟨(clear_menu_frame [("m1", m1ex), ("m2", m2ex)] "ghost").1 rfl,
   ((clear_menu_frame [("m1", m1ex), ("m2", m2ex)] "m1").2 m1ex rfl).1,
   ((clear_menu_frame [("m1", m1ex), ("m2", m2ex)] "m1").2 m1ex rfl).2 "m2" (by decide)⟩

/-- C4: for a positive `max_per_row`, the generated keyboard is the grid of
the options' cells in order — flattening the rows restores, in option order,
cell `i` with the display text of option `i` and the address token
`menu_id ++ ":" ++ callback` — rows are closed after every `max_per_row`
cells, every row except possibly the last has exactly `max_per_row` cells,
and the last row has `options.length % max_per_row` cells (`max_per_row`
when the length is evenly divisible). -/
theorem generate_inline_keyboard_grid (menu : ButtonMenu)
    (hm : 1 ≤ menu.max_per_row) :
    ∃ kb, generate_inline_keyboard menu = some kb
      ∧ kb.flatten = mkCells menu.menu_id menu.options
      ∧ (kb = [] ↔ menu.options = [])
      ∧ (∀ r ∈ kb.dropLast, r.length = menu.max_per_row)
      ∧ (∀ r, kb.getLast? = some r →
          r.length = if menu.options.length % menu.max_per_row = 0
            then menu.max_per_row else menu.options.length % menu.max_per_row) := by
  refine ⟨chunk menu.max_per_row (mkCells menu.menu_id menu.options), ?_, ?_, ?_, ?_, ?_⟩
  · have h := kbLoop_chunk menu.menu_id menu.max_per_row hm menu.options 0 [] [] (by simp)
    simpa [generate_inline_keyboard] using h
  · exact chunk_flatten _ hm _
  · rw [chunk_eq_nil _ hm]
    simp [mkCells]
  · exact chunk_dropLast_length _ hm _
  · intro r hr
    by_cases hne : menu.options = []
    · rw [hne] at hr
      simp [mkCells, chunk_nil] at hr
    · have hlast := chunk_getLast_length menu.max_per_row hm
        (mkCells menu.menu_id menu.options) (by simp [mkCells, hne]) r hr
      simpa [mkCells] using hlast

/-- C4 witness: the three-option, width-two example menu satisfies the grid
law (two full rows of two and one, with the last row of length 3 % 2 = 1). -/
theorem generate_inline_keyboard_grid_witness :
    1 ≤ m4ex.max_per_row
    ∧ ∃ kb, generate_inline_keyboard m4ex = some kb
      ∧ kb.flatten = mkCells m4ex.menu_id m4ex.options
      ∧ (kb = [] ↔ m4ex.options = [])
      ∧ (∀ r ∈ kb.dropLast, r.length = m4ex.max_per_row)
      ∧ (∀ r, kb.getLast? = some r →
          r.length = if m4ex.options.length % m4ex.max_per_row = 0
            then m4ex.max_per_row else m4ex.options.length % m4ex.max_per_row) :=
  ⟨by decide, generate_inline_keyboard_grid m4ex (by decide)⟩

/-- C9 counterexample: a menu constructed with `max_per_row = 0` raises no
fault at construction time — the constructed value is fully usable, e.g. its
options are still searchable — and the hard fault (`ZeroDivisionError`,
embedded as `none`) occurs only when the keyboard layout is computed. -/
theorem zero_max_per_row_construction_cx :
    (ButtonMenu.mk "q" [.mk "A" "a" none] 0 "m9").find_option "a"
      = some (.mk "A" "a" none)
    ∧ generate_inline_keyboard (.mk "q" [.mk "A" "a" none] 0 "m9") = none :=
  ⟨rfl, rfl⟩

/-- C9 (amended): constructing a menu with `max_per_row = 0` succeeds (the
dataclass performs no validation); the hard fault is raised only when the
keyboard layout is computed, and only when there is at least one option to
lay out — with no options the layout loop never divides and yields an empty
keyboard. -/
theorem generate_zero_max_per_row (q : String) (opts : List ButtonOption) (mid : String) :
    (opts ≠ [] → generate_inline_keyboard (.mk q opts 0 mid) = none)
    ∧ generate_inline_keyboard (.mk q [] 0 mid) = some [] := by
  constructor
  · intro h
    match opts, h with
    | o :: rest, _ =>
      simp [generate_inline_keyboard, kbLoop, ButtonMenu.menu_id, ButtonMenu.max_per_row,
        ButtonMenu.options]
  · rfl

/-- C9 witness: the single-option menu with width zero faults at layout time,
while the zero-option menu with width zero lays out as the empty keyboard. -/
theorem generate_zero_max_per_row_witness :
    ([ButtonOption.mk "A" "a" none] ≠ ([] : List ButtonOption))
    ∧ generate_inline_keyboard (.mk "q" [.mk "A" "a" none] 0 "m9w") = none
    ∧ generate_inline_keyboard (.mk "q" [] 0 "m9w") = some [] :=
  ⟨List.cons_ne_nil _ _,
   (generate_zero_max_per_row "q" [.mk "A" "a" none] "m9w").1 (List.cons_ne_nil _ _),
   (generate_zero_max_per_row "q" [] "m9w").2⟩

/-- The registry effect of `show_menu` is the insertion of the presented menu
under its id, whatever the transport outcome: registration happens before the
keyboard is generated and before any dispatch. -/
theorem show_menu_registry (env : Env) (reg : Registry) (menu : ButtonMenu)
    (uo : Bool) :
    (show_menu env reg menu uo).2 = regInsert menu.menu_id menu reg := by
  unfold show_menu
  cases generate_inline_keyboard menu with
  | none => rfl
  | some kb => cases uo <;> rfl

/-- Lookup of the freshly inserted id. -/
theorem regLookup_insert_self (mid : String) (m : ButtonMenu) (reg : Registry) :
    regLookup mid (regInsert mid m reg) = some m := by
  simp [regLookup, regInsert, lookupKey]

/-- Insertion leaves the lookup of every other id unchanged. -/
theorem regLookup_insert_ne (k mid : String) (m : ButtonMenu) (reg : Registry)
    (h : ¬ mid = k) :
    regLookup k (regInsert mid m reg) = regLookup k reg := by
  simp [regLookup, regInsert, lookupKey, h]

/-- C5 counterexample: nothing prevents a sub-menu from carrying a menu id
that collides with one already registered. Here the sub-menu's id equals the
root's id `"m"`; after presenting only the root, the address token
`"m" ++ ":" ++ "a"` — formed from the sub-menu's menu id — resolves to a
selection instead of yielding the unknown-menu outcome, although the sub-menu
itself was never presented. -/
theorem show_menu_sub_menu_cx :
    root5.options = [.mk "A" "a" (some sub5)]
    ∧ regLookup sub5.menu_id [] = none
    ∧ handle_callback (show_menu env0 [] root5 true).2 (sub5.menu_id ++ ":" ++ "a")
        = some ⟨"a", "A", "m", ["a"], some sub5⟩ :=
  ⟨rfl, rfl, rfl⟩

/-- C5 (amended): presenting a root menu inserts only the root's menu id —
every other id keeps its previous registry binding. Provided the sub-menu's
id is separator-free, differs from the root's id, and was not already
registered, no address token formed from the sub-menu's id resolves after the
presentation, while resolving the parent option through the root's own token
returns the sub-menu purely as selection data (the sub-menu's id is still
unregistered afterwards, `handle_callback` being read-only on the registry). -/
theorem show_menu_registers_only_root (env : Env) (reg : Registry)
    (root : ButtonMenu) (uo : Bool) (c : String) (o : ButtonOption) (sub : ButtonMenu)
    (hfind : root.find_option c = some o)
    (hsub : o.sub_menu = some sub)
    (hrootsep : ':' ∉ root.menu_id.data)
    (hsubsep : ':' ∉ sub.menu_id.data)
    (hne : sub.menu_id ≠ root.menu_id)
    (hunreg : regLookup sub.menu_id reg = none) :
    (∀ k, k ≠ root.menu_id →
        regLookup k (show_menu env reg root uo).2 = regLookup k reg)
    ∧ regLookup sub.menu_id (show_menu env reg root uo).2 = none
    ∧ (∀ c', handle_callback (show_menu env reg root uo).2
        (sub.menu_id ++ ":" ++ c') = none)
    ∧ handle_callback (show_menu env reg root uo).2 (root.menu_id ++ ":" ++ c)
        = some ⟨c, o.text, root.menu_id, [c], some sub⟩ := by
  have hreg : (show_menu env reg root uo).2 = regInsert root.menu_id root reg :=
    show_menu_registry env reg root uo
  have hframe : ∀ k, k ≠ root.menu_id →
      regLookup k (show_menu env reg root uo).2 = regLookup k reg := by
    intro k hk
    rw [hreg, regLookup_insert_ne k root.menu_id root reg (fun he => hk he.symm)]
  have hsubnone : regLookup sub.menu_id (show_menu env reg root uo).2 = none := by
    rw [hframe sub.menu_id hne]
    exact hunreg
  refine ⟨hframe, hsubnone, ?_, ?_⟩
  · intro c'
    simp [handle_callback, split1_sep sub.menu_id c' hsubsep, hsubnone]
  · rw [hreg]
    simp [handle_callback, split1_sep root.menu_id c hrootsep,
      regLookup_insert_self, hfind, hsub]

/-- C5 witness: presenting `rootW` leaves `subW`'s id unresolvable while the
root's own token resolves, carrying the sub-menu as data. -/
theorem show_menu_registers_only_root_witness :
    (∀ k, k ≠ rootW.menu_id →
        regLookup k (show_menu env0 [] rootW true).2 = regLookup k [])
    ∧ regLookup subW.menu_id (show_menu env0 [] rootW true).2 = none
    ∧ (∀ c', handle_callback (show_menu env0 [] rootW true).2
        (subW.menu_id ++ ":" ++ c') = none)
    ∧ handle_callback (show_menu env0 [] rootW true).2 (rootW.menu_id ++ ":" ++ "a")
        = some ⟨"a", (ButtonOption.mk "A" "a" (some subW)).text, rootW.menu_id, ["a"],
            some subW⟩ :=
  show_menu_registers_only_root env0 [] rootW true "a" (.mk "A" "a" (some subW)) subW
    rfl rfl (by decide) (by decide) (by decide) rfl

/-- C8 counterexample: with no bot token configured, presenting over the
direct transport raises `ValueError` (the embedded `Except.error`), not a
typed failure value; the menu is nevertheless registered before the failed
dispatch. -/
theorem show_menu_missing_token_cx :
    (show_menu ⟨none, none, "msg"⟩ [] m1ex false).1 = Except.error PyError.valueError
    ∧ regLookup "m1" (show_menu ⟨none, none, "msg"⟩ [] m1ex false).2 = some m1ex :=
  ⟨rfl, rfl⟩

/-- C8 (amended): when presenting over the direct transport, a missing bot
token raises `ValueError`, which propagates to the caller (it is not caught
anywhere in `show_menu`), whereas a failing HTTP request is caught and
surfaced as the `None` result; in both cases the tree remains registered
after the failed dispatch. -/
theorem show_menu_direct_transport_failures (env : Env) (reg : Registry)
    (menu : ButtonMenu) (hkb : (generate_inline_keyboard menu).isSome = true) :
    (env.bot_token = none →
      (show_menu env reg menu false).1 = Except.error PyError.valueError)
    ∧ (∀ t, env.bot_token = some t → env.http_response = none →
      (show_menu env reg menu false).1 = Except.ok none)
    ∧ regLookup menu.menu_id (show_menu env reg menu false).2 = some menu := by
  cases hg : generate_inline_keyboard menu with
  | none => rw [hg] at hkb; simp at hkb
  | some kb =>
    refine ⟨?_, ?_, ?_⟩
    · intro hbt
      simp [show_menu, hg, send_via_telegram_api, hbt]
    · intro t hbt hhttp
      simp [show_menu, hg, send_via_telegram_api, hbt, hhttp]
    · rw [show_menu_registry env reg menu false, regLookup_insert_self]

/-- C8 witness: the missing-token and failed-request outcomes on the example
menu, with the menu registered in both cases. -/
theorem show_menu_direct_transport_failures_witness :
    (show_menu ⟨none, none, "w"⟩ [] m2ex false).1 = Except.error PyError.valueError
    ∧ (show_menu ⟨some "tok", none, "w"⟩ [] m2ex false).1 = Except.ok none
    ∧ regLookup m2ex.menu_id (show_menu ⟨none, none, "w"⟩ [] m2ex false).2 = some m2ex :=
  ⟨(show_menu_direct_transport_failures ⟨none, none, "w"⟩ [] m2ex (by decide)).1 rfl,
   (show_menu_direct_transport_failures ⟨some "tok", none, "w"⟩ [] m2ex
      (by decide)).2.1 "tok" rfl rfl,
   (show_menu_direct_transport_failures ⟨none, none, "w"⟩ [] m2ex (by decide)).2.2⟩

/-- C6: the source's `wait_selection` is an acknowledged stub — it ignores the
filter, the timeout and the delete flag and unconditionally returns the
timed-out outcome `None`, never a selection, so no delivered callback can ever
resolve a wait. -/
theorem wait_selection_stub (menu_id : Option String) (timeout : Nat)
    (delete_message : Bool) :
    wait_selection menu_id timeout delete_message = none :=
  rfl

/-- Lookup of a present-or-absent field under its own key. -/
theorem lookupKey_optField_self (k : String) (v : Option Doc) :
    lookupKey k (optField k v) = v := by
  cases v <;> simp [optField, lookupKey]

/-- Lookup of a present-or-absent field under a different key. -/
theorem lookupKey_optField_ne (k k' : String) (v : Option Doc) (h : ¬ k' = k) :
    lookupKey k (optField k' v) = none := by
  cases v <;> simp [optField, lookupKey, h]

/-- Lookup skips a prefix in which the key is absent. -/
theorem lookupKey_append_none {α : Type} {k : String} {l1 l2 : List (String × α)}
    (h : lookupKey k l1 = none) :
    lookupKey k (l1 ++ l2) = lookupKey k l2 := by
  induction l1 with
  | nil => simp
  | cons p rest ih =>
    obtain ⟨k', v⟩ := p
    by_cases hk : k' = k
    · simp [lookupKey, hk] at h
    · simp only [List.cons_append, lookupKey, if_neg hk] at h ⊢
      exact ih h

/-- Lookup stops at a prefix in which the key is bound. -/
theorem lookupKey_append_some {α : Type} {k : String} {l1 l2 : List (String × α)}
    {v : α} (h : lookupKey k l1 = some v) :
    lookupKey k (l1 ++ l2) = some v := by
  induction l1 with
  | nil => simp [lookupKey] at h
  | cons p rest ih =>
    obtain ⟨k', v'⟩ := p
    by_cases hk : k' = k
    · simp only [lookupKey, if_pos hk] at h
      simp only [List.cons_append, lookupKey, if_pos hk]
      exact h
    · simp only [lookupKey, if_neg hk] at h
      simp only [List.cons_append, lookupKey, if_neg hk]
      exact ih h

/-- The `question` field of a rendered menu document. -/
theorem menuFields_question (q : Option String) (opts : Option (List OptDoc))
    (mpr : Option Nat) (mid : Option String) :
    lookupKey "question" (menuDocFields (.mk q opts mpr mid)) = q.map Doc.str := by
  cases q <;> cases opts <;> cases mpr <;> cases mid <;>
    simp [menuDocFields, optField, lookupKey]

/-- The `options` field of a rendered menu document. -/
theorem menuFields_options (q : Option String) (opts : Option (List OptDoc))
    (mpr : Option Nat) (mid : Option String) :
    lookupKey "options" (menuDocFields (.mk q opts mpr mid))
      = match opts with
        | none => none
        | some l => some (Doc.list (optDocListToDoc l)) := by
  cases q <;> cases opts <;> cases mpr <;> cases mid <;>
    simp [menuDocFields, optField, lookupKey]

/-- The `max_per_row` field of a rendered menu document. -/
theorem menuFields_max_per_row (q : Option String) (opts : Option (List OptDoc))
    (mpr : Option Nat) (mid : Option String) :
    lookupKey "max_per_row" (menuDocFields (.mk q opts mpr mid)) = mpr.map Doc.nat := by
  cases q <;> cases opts <;> cases mpr <;> cases mid <;>
    simp [menuDocFields, optField, lookupKey]

/-- The `menu_id` field of a rendered menu document. -/
theorem menuFields_menu_id (q : Option String) (opts : Option (List OptDoc))
    (mpr : Option Nat) (mid : Option String) :
    lookupKey "menu_id" (menuDocFields (.mk q opts mpr mid)) = mid.map Doc.str := by
  cases q <;> cases opts <;> cases mpr <;> cases mid <;>
    simp [menuDocFields, optField, lookupKey]

/-- The `text` field of a rendered option document. -/
theorem optFields_text (t c : Option String) (sub : Option MenuDoc) :
    lookupKey "text" (optDocFields (.mk t c sub)) = t.map Doc.str := by
  cases t <;> cases c <;> cases sub <;> simp [optDocFields, optField, lookupKey]

/-- The `callback` field of a rendered option document. -/
theorem optFields_callback (t c : Option String) (sub : Option MenuDoc) :
    lookupKey "callback" (optDocFields (.mk t c sub)) = c.map Doc.str := by
  cases t <;> cases c <;> cases sub <;> simp [optDocFields, optField, lookupKey]

/-- The `sub_menu` field of a rendered option document. -/
theorem optFields_sub (t c : Option String) (sub : Option MenuDoc) :
    lookupKey "sub_menu" (optDocFields (.mk t c sub))
      = match sub with
        | none => none
        | some m => some (Doc.obj (menuDocFields m)) := by
  cases t <;> cases c <;> cases sub <;> simp [optDocFields, optField, lookupKey]
/-- Evaluation of the sub-menu parsing step on a rendered option document. -/
theorem parseSubMenu_optDoc (gen : Nat → String) (t c : Option String)
    (sub : Option MenuDoc) (k : Nat) :
    parseSubMenu gen (optDocFields (.mk t c sub)) k
      = match sub with
        | none => some ((none : Option ButtonMenu), k)
        | some m => (ButtonMenu.from_dict gen (Doc.obj (menuDocFields m)) k).map
            (fun (p : ButtonMenu × Nat) => (some p.1, p.2)) := by
  rw [parseSubMenu]
  split
  · next h =>
    simp only [optFields_sub] at h
    cases sub with
    | none => rfl
    | some m => simp at h
  · next sd h =>
    simp only [optFields_sub] at h
    cases sub with
    | none => simp at h
    | some m =>
      simp only [Option.some.injEq] at h
      rw [← h]

/-- Evaluation of the options parsing step on a rendered menu document. -/
theorem parseOptionsField_menuDoc (gen : Nat → String) (q : Option String)
    (opts : Option (List OptDoc)) (mpr : Option Nat) (mid : Option String) (k : Nat) :
    parseOptionsField gen (menuDocFields (.mk q opts mpr mid)) k
      = match opts with
        | none => some (([] : List ButtonOption), k)
        | some l => fromDictList gen (optDocListToDoc l) k := by
  rw [parseOptionsField]
  split
  · next h =>
    simp only [menuFields_options] at h
    cases opts with
    | none => rfl
    | some l => simp at h
  · next ds h =>
    simp only [menuFields_options] at h
    cases opts with
    | none => simp at h
    | some l =>
      simp only [Option.some.injEq, Doc.list.injEq] at h
      rw [← h]
  · next v hv h =>
    simp only [menuFields_options] at h
    cases opts with
    | none => simp at h
    | some l =>
      simp only [Option.some.injEq] at h
      exact absurd h.symm (hv (optDocListToDoc l))

mutual
/-- Deserialization of a rendered menu document succeeds exactly when all
required fields are present (recursively). -/
theorem menuDoc_from_dict_isSome (gen : Nat → String) (md : MenuDoc) (k : Nat) :
    (ButtonMenu.from_dict gen md.toDoc k).isSome = md.requiredOk := by
  match md with
  | .mk q opts mpr mid =>
    unfold MenuDoc.toDoc
    unfold ButtonMenu.from_dict
    rw [parseOptionsField_menuDoc]
    cases opts with
    | none =>
      simp only [Option.some_bind]
      simp only [getStr, menuFields_question, menuFields_max_per_row, menuFields_menu_id,
        MenuDoc.requiredOk]
      cases q <;> cases mpr <;> cases mid <;> simp
    | some l =>
      have hl := optDocList_from_dict_isSome gen l k
      cases hfl : fromDictList gen (optDocListToDoc l) k with
      | none =>
        rw [hfl] at hl
        simp only [Option.isSome_none] at hl
        simp only [hfl, Option.none_bind, Option.isSome_none, MenuDoc.requiredOk]
        rw [← hl]
        simp
      | some p =>
        rw [hfl] at hl
        simp only [Option.isSome_some] at hl
        simp only [hfl, Option.some_bind]
        simp only [getStr, menuFields_question, menuFields_max_per_row, menuFields_menu_id,
          MenuDoc.requiredOk]
        rw [← hl]
        cases q <;> cases mpr <;> cases mid <;> simp
termination_by sizeOf md

/-- Deserialization of a rendered option document succeeds exactly when all
required fields are present (recursively). -/
theorem optDoc_from_dict_isSome (gen : Nat → String) (od : OptDoc) (k : Nat) :
    (ButtonOption.from_dict gen (Doc.obj (optDocFields od)) k).isSome
      = od.requiredOk := by
  match od with
  | .mk t c sub =>
    unfold ButtonOption.from_dict
    rw [parseSubMenu_optDoc]
    cases sub with
    | none =>
      simp only [Option.some_bind]
      simp only [getStr, optFields_text, optFields_callback, OptDoc.requiredOk]
      cases t <;> cases c <;> simp
    | some m =>
      have hm := menuDoc_from_dict_isSome gen m k
      simp only [MenuDoc.toDoc] at hm
      cases hfm : ButtonMenu.from_dict gen (Doc.obj (menuDocFields m)) k with
      | none =>
        rw [hfm] at hm
        simp only [Option.isSome_none] at hm
        simp only [hfm, Option.map_none', Option.none_bind, Option.isSome_none,
          OptDoc.requiredOk]
        rw [← hm]
        simp
      | some p =>
        rw [hfm] at hm
        simp only [Option.isSome_some] at hm
        simp only [hfm, Option.map_some', Option.some_bind]
        simp only [getStr, optFields_text, optFields_callback, OptDoc.requiredOk]
        rw [← hm]
        cases t <;> cases c <;> simp
termination_by sizeOf od

/-- Deserialization of a rendered option list succeeds exactly when every
option document of the list has its required fields. -/
theorem optDocList_from_dict_isSome (gen : Nat → String) (l : List OptDoc) (k : Nat) :
    (fromDictList gen (optDocListToDoc l) k).isSome = optDocListOk l := by
  match l with
  | [] => simp [optDocListToDoc, fromDictList, optDocListOk]
  | d :: rest =>
    simp only [optDocListToDoc, fromDictList, optDocListOk]
    have hd := optDoc_from_dict_isSome gen d k
    cases hfd : ButtonOption.from_dict gen (Doc.obj (optDocFields d)) k with
    | none =>
      rw [hfd] at hd
      simp only [Option.isSome_none] at hd
      simp [hfd, ← hd]
    | some p =>
      obtain ⟨o1, k1⟩ := p
      rw [hfd] at hd
      simp only [Option.isSome_some] at hd
      have hrest := optDocList_from_dict_isSome gen rest k1
      cases hfr : fromDictList gen (optDocListToDoc rest) k1 with
      | none =>
        rw [hfr] at hrest
        simp only [Option.isSome_none] at hrest
        simp [hfd, hfr, ← hd, ← hrest]
      | some p2 =>
        obtain ⟨os, k2⟩ := p2
        rw [hfr] at hrest
        simp only [Option.isSome_some] at hrest
        simp [hfd, hfr, ← hd, ← hrest]
termination_by sizeOf l
end

/-- Identity of a successfully deserialized rendered document: a supplied
`menu_id` field is honored; otherwise the menu carries a generated id. -/
theorem menuDoc_from_dict_menu_id (gen : Nat → String) (md : MenuDoc) (k : Nat) :
    ∀ m k', ButtonMenu.from_dict gen md.toDoc k = some (m, k') →
      (∀ s, md.menuIdField = some s → m.menu_id = s)
      ∧ (md.menuIdField = none → ∃ j, m.menu_id = gen j) := by
  match md with
  | .mk q opts mpr mid =>
    intro m k' h
    unfold MenuDoc.toDoc at h
    unfold ButtonMenu.from_dict at h
    rw [parseOptionsField_menuDoc] at h
    rcases Option.bind_eq_some.mp h with ⟨a, hO, hF⟩
    simp only [getStr, menuFields_question] at hF
    cases q with
    | none => simp at hF
    | some qs =>
      simp only [Option.map_some'] at hF
      rcases Option.bind_eq_some.mp hF with ⟨mprv, hm1, hm2⟩
      simp only [menuFields_menu_id] at hm2
      cases mid with
      | none =>
        simp only [Option.map_none', Option.some.injEq, Prod.mk.injEq] at hm2
        obtain ⟨hm3, _⟩ := hm2
        constructor
        · intro s hs
          simp [MenuDoc.menuIdField] at hs
        · intro _
          refine ⟨a.2, ?_⟩
          rw [← hm3]
          exact rfl
      | some s =>
        simp only [Option.map_some', Option.some.injEq, Prod.mk.injEq] at hm2
        obtain ⟨hm3, _⟩ := hm2
        constructor
        · intro s' hs'
          simp only [MenuDoc.menuIdField, Option.some.injEq] at hs'
          rw [← hs', ← hm3]
          exact rfl
        · intro hnone
          simp [MenuDoc.menuIdField] at hnone

/-- C7: over documents of the menu definition file format, deserialization
succeeds exactly when the `question` field, and the `text` and `callback`
fields of every listed option at every nesting depth, are present; a missing
one is the malformed-document failure (the source's `KeyError`, embedded as
`none`, which the spec names `MalformedMenuError`). On success, a supplied
`menu_id` is honored, and a freshly generated id is used otherwise. -/
theorem from_dict_required_fields (gen : Nat → String) (md : MenuDoc) (k : Nat) :
    ((ButtonMenu.from_dict gen md.toDoc k).isSome = md.requiredOk)
    ∧ (∀ m k', ButtonMenu.from_dict gen md.toDoc k = some (m, k') →
        (∀ s, md.menuIdField = some s → m.menu_id = s)
        ∧ (md.menuIdField = none → ∃ j, m.menu_id = gen j)) :=
  ⟨menuDoc_from_dict_isSome gen md k, menuDoc_from_dict_menu_id gen md k⟩

/-- C7 witness: a complete document deserializes (and keeps its supplied id
`"m1"`), while a document missing `question` fails. -/
theorem from_dict_required_fields_witness :
    (ButtonMenu.from_dict gen0 md0.toDoc 0).isSome = md0.requiredOk
    ∧ md0.requiredOk = true
    ∧ (ButtonMenu.from_dict gen0 md1.toDoc 0).isSome = md1.requiredOk
    ∧ md1.requiredOk = false
    ∧ (∀ m k', ButtonMenu.from_dict gen0 md0.toDoc 0 = some (m, k') →
        m.menu_id = "m1") := by
  refine ⟨(from_dict_required_fields gen0 md0 0).1, ?_,
    (from_dict_required_fields gen0 md1 0).1, ?_, ?_⟩
  · simp [md0, MenuDoc.requiredOk, OptDoc.requiredOk, optDocListOk]
  · simp [md1, MenuDoc.requiredOk]
  · intro m k' h
    exact ((from_dict_required_fields gen0 md0 0).2 m k' h).1 "m1" rfl
